import Mathlib

/-!
# Verification of the torproject bootstrap/supervision library

Shallow embedding of the Rust sources (`downloader.rs`, `tor.rs`, `lib.rs`)
of the `torproject` crate, together with proofs about version resolution,
download-URL construction, the archive store step, and the Tor process
supervisor.

External collaborators (the semver comparison crate, the filesystem, the
Unix signal interface) are modelled explicitly; everything that is logic of
the repository itself is translated directly from the source.
-/

open Batteries

/-! ## Generic comparator infrastructure

The Rust code sorts candidate versions with `Iterator::max_by` over
`semver::Version::cmp`.  We model comparators as `Ordering`-valued
functions and reuse Batteries' `OrientedCmp`/`TransCmp` classes.
-/

/-- Pull a comparator back along a function. -/
def cmpOn (c : β → β → Ordering) (f : α → β) (a b : α) : Ordering :=
  c (f a) (f b)

instance (c : β → β → Ordering) (f : α → β) [i : OrientedCmp c] :
    OrientedCmp (cmpOn c f) where
  symm a b := i.symm (f a) (f b)

instance (c : β → β → Ordering) (f : α → β) [i : TransCmp c] :
    TransCmp (cmpOn c f) where
  le_trans h1 h2 := i.le_trans h1 h2

/-- Lexicographic comparison of lists by a comparator on elements.  A strict
prefix compares as smaller.  This is how `semver` compares pre-release
identifier lists. -/
def cmpListBy (c : α → α → Ordering) : List α → List α → Ordering
  | [], [] => .eq
  | [], _ :: _ => .lt
  | _ :: _, [] => .gt
  | x :: xs, y :: ys => (c x y).then (cmpListBy c xs ys)

theorem cmpListBy_swap (c : α → α → Ordering) [i : OrientedCmp c] :
    ∀ xs ys : List α, (cmpListBy c xs ys).swap = cmpListBy c ys xs
  | [], [] => rfl
  | [], _ :: _ => rfl
  | _ :: _, [] => rfl
  | x :: xs, y :: ys => by
    simp only [cmpListBy, Ordering.swap_then, i.symm, cmpListBy_swap c xs ys]

instance (c : α → α → Ordering) [OrientedCmp c] : OrientedCmp (cmpListBy c) where
  symm xs ys := cmpListBy_swap c xs ys

theorem cmpListBy_le_trans (c : α → α → Ordering) [i : TransCmp c] :
    ∀ xs ys zs : List α, cmpListBy c xs ys ≠ .gt → cmpListBy c ys zs ≠ .gt →
      cmpListBy c xs zs ≠ .gt
  | [], _, zs, _, _ => by cases zs <;> simp [cmpListBy]
  | _ :: _, [], _, h1, _ => absurd rfl h1
  | _ :: _, _ :: _, [], _, h2 => absurd rfl h2
  | x :: xs, y :: ys, z :: zs, h1, h2 => by
    simp only [cmpListBy, ne_eq, Ordering.then_eq_gt, not_or, not_and] at h1 h2 ⊢
    refine ⟨i.le_trans h1.1 h2.1, fun e1 e2 => ?_⟩
    match ab : c x y with
    | .gt => exact h1.1 ab
    | .eq =>
      exact cmpListBy_le_trans c xs ys zs (h1.2 ab)
        (h2.2 (i.cmp_congr_left ab ▸ e1)) e2
    | .lt =>
      have hzy : c z y = Ordering.lt := i.cmp_congr_left e1 ▸ ab
      have hsw := i.symm z y
      rw [hzy] at hsw
      exact h2.1 hsw.symm

instance (c : α → α → Ordering) [TransCmp c] : TransCmp (cmpListBy c) where
  le_trans {xs ys zs} h1 h2 := cmpListBy_le_trans c xs ys zs h1 h2

/-! ## Model of the external `semver` crate

`downloader.rs` calls `semver::Version::parse` and `semver::Version::cmp`.
The spec lists semantic-version comparison as an external collaborator; we
model the published semver 2.0 grammar and precedence rules. -/

/-- A pre-release identifier: numeric identifiers order below alphanumeric
ones; numeric compare as numbers, alphanumeric in ASCII order. -/
abbrev PreId := Sum Nat String

/-- Compare characters by code point. -/
def cmpChar : Char → Char → Ordering := cmpOn compare Char.toNat

instance : TransCmp cmpChar := by
  unfold cmpChar; infer_instance

/-- ASCII-lexicographic comparison of strings. -/
def cmpStr : String → String → Ordering := cmpOn (cmpListBy cmpChar) String.toList

instance : TransCmp cmpStr := by
  unfold cmpStr; infer_instance

/-- semver precedence on single pre-release identifiers. -/
def cmpPreId : PreId → PreId → Ordering
  | .inl m, .inl n => compare m n
  | .inl _, .inr _ => .lt
  | .inr _, .inl _ => .gt
  | .inr s, .inr t => cmpStr s t

instance : OrientedCmp cmpPreId where
  symm a b := by
    match a, b with
    | .inl m, .inl n =>
      show (compare m n).swap = compare n m
      exact OrientedCmp.symm m n
    | .inl _, .inr _ => rfl
    | .inr _, .inl _ => rfl
    | .inr s, .inr t =>
      show (cmpStr s t).swap = cmpStr t s
      exact OrientedCmp.symm s t

instance : TransCmp cmpPreId where
  le_trans {a b c} h1 h2 := by
    match a, b, c with
    | .inl x, .inl y, .inl z =>
      show compare x z ≠ .gt
      exact TransCmp.le_trans (h1 : compare x y ≠ .gt) (h2 : compare y z ≠ .gt)
    | .inl _, .inl _, .inr _ => exact fun h => Ordering.noConfusion h
    | .inl _, .inr _, .inl _ => exact absurd rfl h2
    | .inl _, .inr _, .inr _ => exact fun h => Ordering.noConfusion h
    | .inr _, .inl _, _ => exact absurd rfl h1
    | .inr _, .inr _, .inl _ => exact absurd rfl h2
    | .inr s, .inr t, .inr u =>
      show cmpStr s u ≠ .gt
      exact TransCmp.le_trans (h1 : cmpStr s t ≠ .gt) (h2 : cmpStr t u ≠ .gt)

/-- semver precedence on the optional pre-release component: a release
version (no pre-release) has higher precedence than any pre-release. -/
def cmpPre : Option (List PreId) → Option (List PreId) → Ordering
  | none, none => .eq
  | none, some _ => .gt
  | some _, none => .lt
  | some a, some b => cmpListBy cmpPreId a b

instance : OrientedCmp cmpPre where
  symm a b := by
    match a, b with
    | none, none => rfl
    | none, some _ => rfl
    | some _, none => rfl
    | some x, some y =>
      show (cmpListBy cmpPreId x y).swap = cmpListBy cmpPreId y x
      exact OrientedCmp.symm x y

instance : TransCmp cmpPre where
  le_trans {a b c} h1 h2 := by
    match a, b, c with
    | none, none, none => exact fun h => Ordering.noConfusion h
    | none, none, some _ => exact absurd rfl h2
    | none, some _, none => exact fun h => Ordering.noConfusion h
    | none, some _, some _ => exact absurd rfl h1
    | some _, none, none => exact fun h => Ordering.noConfusion h
    | some _, none, some _ => exact absurd rfl h2
    | some _, some _, none => exact fun h => Ordering.noConfusion h
    | some x, some y, some z =>
      show cmpListBy cmpPreId x z ≠ .gt
      exact TransCmp.le_trans
        (h1 : cmpListBy cmpPreId x y ≠ .gt) (h2 : cmpListBy cmpPreId y z ≠ .gt)

/-- The parsed form of a semantic version (build metadata is validated by
the parser but irrelevant to precedence, exactly as in semver 2.0). -/
structure SemVer where
  major : Nat
  minor : Nat
  patch : Nat
  pre : Option (List PreId)
deriving DecidableEq

/-- semver precedence: compare major, then minor, then patch, then the
pre-release component. -/
def cmpKey : SemVer → SemVer → Ordering :=
  compareLex (cmpOn compare SemVer.major)
    (compareLex (cmpOn compare SemVer.minor)
      (compareLex (cmpOn compare SemVer.patch) (cmpOn cmpPre SemVer.pre)))

instance : TransCmp cmpKey := by
  unfold cmpKey; infer_instance

/-- Digit character predicate ('0'..'9'). -/
def isDigitChar (c : Char) : Bool := 48 ≤ c.toNat && c.toNat ≤ 57

/-- Characters allowed in semver pre-release/build identifiers:
ASCII alphanumerics and hyphen. -/
def isIdentChar (c : Char) : Bool :=
  isDigitChar c || (65 ≤ c.toNat && c.toNat ≤ 90) ||
    (97 ≤ c.toNat && c.toNat ≤ 122) || c.toNat = 45

/-- Numeric value of a digit string. -/
def digitsVal (cs : List Char) : Nat :=
  cs.foldl (fun n c => 10 * n + (c.toNat - 48)) 0

/-- Split a character list on a separator character. -/
def splitSepChar (sep : Char) : List Char → List Char → List (List Char)
  | [], acc => [acc.reverse]
  | c :: cs, acc =>
    if c = sep then acc.reverse :: splitSepChar sep cs []
    else splitSepChar sep cs (c :: acc)

/-- A valid semver numeric identifier: nonempty digits, no leading zero. -/
def numericOk (cs : List Char) : Bool :=
  !cs.isEmpty && cs.all isDigitChar && (cs.length = 1 || cs.head? ≠ some '0')

/-- Parse a numeric version component. -/
def parseNumPart (cs : List Char) : Option Nat :=
  if numericOk cs then some (digitsVal cs) else none

/-- A valid pre-release identifier: nonempty, alphanumeric/hyphen, and if it
is all digits it must have no leading zero. -/
def preIdOk (cs : List Char) : Bool :=
  !cs.isEmpty && cs.all isIdentChar && (!cs.all isDigitChar || numericOk cs)

/-- A valid build-metadata identifier: nonempty, alphanumeric/hyphen. -/
def buildIdOk (cs : List Char) : Bool :=
  !cs.isEmpty && cs.all isIdentChar

/-- Interpret a pre-release identifier: numeric or alphanumeric. -/
def preIdVal (cs : List Char) : PreId :=
  if cs.all isDigitChar then .inl (digitsVal cs) else .inr (String.mk cs)

/-- Parse the dot-separated pre-release component. -/
def parsePre (cs : List Char) : Option (List PreId) :=
  let parts := splitSepChar '.' cs []
  if parts.all preIdOk then some (parts.map preIdVal) else none

/-- Parse the `major.minor.patch` version core. -/
def parseCore (cs : List Char) : Option (Nat × Nat × Nat) :=
  match splitSepChar '.' cs [] with
  | [ma, mi, pa] => do
    let a ← parseNumPart ma
    let b ← parseNumPart mi
    let c ← parseNumPart pa
    some (a, b, c)
  | _ => none

/-- Model of `semver::Version::parse`: `major.minor.patch` with optional
`-pre` and `+build` components. -/
def semverParse (s : String) : Option SemVer :=
  let cs := s.toList
  let beforePlus := cs.takeWhile (fun c => !(c = '+'))
  let plusTail := cs.dropWhile (fun c => !(c = '+'))
  let buildValid : Bool :=
    match plusTail with
    | [] => true
    | _ :: rest => (splitSepChar '.' rest []).all buildIdOk
  if !buildValid then none
  else
    let core := beforePlus.takeWhile (fun c => !(c = '-'))
    let dashTail := beforePlus.dropWhile (fun c => !(c = '-'))
    match parseCore core with
    | none => none
    | some (ma, mi, pa) =>
      match dashTail with
      | [] => some ⟨ma, mi, pa, none⟩
      | _ :: rest =>
        match parsePre rest with
        | none => none
        | some pre => some ⟨ma, mi, pa, some pre⟩

/-- The sort key `resolve_version` uses: the parsed version, or `0.0.0`
(`semver::Version::new(0, 0, 0)`) when parsing fails
(`unwrap_or_else(|_| semver::Version::new(0, 0, 0))`). -/
def verKey (s : String) : SemVer :=
  (semverParse s).getD ⟨0, 0, 0, none⟩

/-- The comparison `resolve_version` hands to `max_by`:
`semver::Version::cmp` on the parse-or-0.0.0 keys. -/
def cmpVer : String → String → Ordering := cmpOn cmpKey verKey

instance : TransCmp cmpVer := by
  unfold cmpVer; infer_instance

/-! ## The version resolver (`downloader.rs`)

`VersionSelection` is from `lib.rs`; `resolve_version` and the href
filtering of `fetch_tor_versions` are from `downloader.rs`.  The network
transfer itself is an external collaborator: we model its outcome as an
`Except String (List String)` argument (the list of hrefs turned into
candidate version strings). -/

/-- `VersionSelection` from `lib.rs`. -/
inductive VersionSelection
  | version (v : String)
  | latest
  | stable
deriving DecidableEq

/-- `DEFAULT_VERSION` from `lib.rs`. -/
def DEFAULT_VERSION : String := "14.0.4"

instance : Inhabited VersionSelection := ⟨.version DEFAULT_VERSION⟩

/-- Is the needle a prefix of the haystack (character lists)? -/
def isPrefixChars : List Char → List Char → Bool
  | [], _ => true
  | _ :: _, [] => false
  | c :: cs, d :: ds => c = d && isPrefixChars cs ds

/-- Substring containment on character lists. -/
def containsChars (needle : List Char) : List Char → Bool
  | [] => needle.isEmpty
  | c :: cs => isPrefixChars needle (c :: cs) || containsChars needle cs

/-- Model of Rust `str::contains` with a string pattern. -/
def containsSub (s pat : String) : Bool :=
  containsChars pat.toList s.toList

/-- The stability filter of `resolve_version`: a `Stable` candidate must not
contain the substrings "alpha", "beta" or "rc". -/
def stableOk (v : String) : Bool :=
  !(containsSub v "alpha") && !(containsSub v "beta") && !(containsSub v "rc")

/-- The filter closure passed to `.filter(...)` in `resolve_version`:
`matches!(selection, VersionSelection::Stable)` guards the stability check,
anything else passes. -/
def selFilter (sel : VersionSelection) (v : String) : Bool :=
  match sel with
  | .stable => stableOk v
  | _ => true

/-- `std::cmp::max_by(acc, y, compare)`: keeps `acc` only when
`compare(&y, &acc) == Less`, so later maximal elements win. -/
def pickMax (cmp : α → α → Ordering) (acc y : α) : α :=
  if cmp y acc = .lt then acc else y

/-- `Iterator::max_by`: `None` on an empty iterator, otherwise the fold of
`std::cmp::max_by` over the elements. -/
def maxByCmp (cmp : α → α → Ordering) : List α → Option α
  | [] => none
  | x :: xs => some (xs.foldl (pickMax cmp) x)

/-- `Downloader::resolve_version`.  `fetched` is the outcome of the
`fetch_tor_versions` collaborator (only consulted for `Latest`/`Stable`). -/
def resolveVersion (sel : VersionSelection) (fetched : Except String (List String)) :
    Except String String :=
  match sel with
  | .version v => .ok v
  | .latest | .stable =>
    match fetched with
    | .error e => .error e
    | .ok versions =>
      match maxByCmp cmpVer (versions.filter (selFilter sel)) with
      | some v => .ok v
      | none => .error "No valid versions found"

/-- The href filtering of `fetch_tor_versions`: keep anchors whose href ends
with '/' and is not the parent marker "../", with trailing slashes
trimmed (`trim_end_matches('/')`). -/
def extractVersions (hrefs : List String) : List String :=
  hrefs.filterMap (fun href =>
    if (href.toList.getLast? = some '/' : Bool) && href != "../" then
      some (String.mk ((href.toList.reverse.dropWhile (fun c => c = '/')).reverse))
    else none)

/-! ### Properties of `max_by` -/

theorem cmp_self_ne_gt (cmp : α → α → Ordering) [i : TransCmp cmp] (x : α) :
    cmp x x ≠ .gt := by
  have hrefl : cmp x x = Ordering.eq := OrientedCmp.cmp_refl
  rw [hrefl]
  exact fun hc => Ordering.noConfusion hc

theorem foldl_pickMax_mem (cmp : α → α → Ordering) :
    ∀ (xs : List α) (x : α), xs.foldl (pickMax cmp) x ∈ x :: xs
  | [], x => by simp
  | y :: ys, x => by
    have hpick : pickMax cmp x y = x ∨ pickMax cmp x y = y := by
      unfold pickMax; split
      · exact Or.inl rfl
      · exact Or.inr rfl
    have ih := foldl_pickMax_mem cmp ys (pickMax cmp x y)
    simp only [List.foldl_cons]
    rcases List.mem_cons.1 ih with h | h
    · rcases hpick with hp | hp
      · rw [h, hp]; simp
      · rw [h, hp]; simp
    · exact List.mem_cons_of_mem _ (List.mem_cons_of_mem _ h)

theorem foldl_pickMax_ub (cmp : α → α → Ordering) [i : TransCmp cmp] :
    ∀ (xs : List α) (x z : α), z ∈ x :: xs →
      cmp z (xs.foldl (pickMax cmp) x) ≠ .gt
  | [], x, z, hz => by
    have hzx : z = x := by simpa using hz
    subst hzx
    simp only [List.foldl_nil]
    exact cmp_self_ne_gt cmp z
  | y :: ys, x, z, hz => by
    have hx : cmp x (pickMax cmp x y) ≠ .gt := by
      unfold pickMax; split
      · exact cmp_self_ne_gt cmp x
      · next hyx =>
        intro hxy
        exact hyx (OrientedCmp.cmp_eq_gt.1 hxy)
    have hy : cmp y (pickMax cmp x y) ≠ .gt := by
      unfold pickMax; split
      · next hyx =>
        rw [hyx]; exact fun hc => Ordering.noConfusion hc
      · exact cmp_self_ne_gt cmp y
    have hrec : cmp (pickMax cmp x y) ((y :: ys).foldl (pickMax cmp) x) ≠ .gt := by
      simp only [List.foldl_cons]
      exact foldl_pickMax_ub cmp ys (pickMax cmp x y) (pickMax cmp x y)
        (List.mem_cons_self _ _)
    rcases List.mem_cons.1 hz with h | h
    · subst h
      exact i.le_trans hx hrec
    · rcases List.mem_cons.1 h with h | h
      · subst h
        exact i.le_trans hy hrec
      · simp only [List.foldl_cons]
        exact foldl_pickMax_ub cmp ys (pickMax cmp x y) z (List.mem_cons_of_mem _ h)

/-- On `Latest`/`Stable`, `resolve_version` reduces to `max_by` over the
filtered candidate list. -/
theorem resolveVersion_eq_maxBy (sel : VersionSelection)
    (hsel : sel = .latest ∨ sel = .stable) (versions : List String) :
    resolveVersion sel (.ok versions) =
      match maxByCmp cmpVer (versions.filter (selFilter sel)) with
      | some v => .ok v
      | none => .error "No valid versions found" := by
  rcases hsel with h | h <;> subst h <;> rfl

/-! ## Targets and the Downloader (`downloader.rs`) -/

/-- `Target`: the Tor build targets available. -/
inductive Target
  | androidAarch64
  | androidArmv7
  | androidX86
  | androidX8664
  | gnuLinuxI686
  | gnuLinuxX8664
  | macOSAarch64
  | macOSX8664
  | windowsI686
  | windowsX8664
deriving DecidableEq

/-- The `Display` implementation of `Target`. -/
def targetString : Target → String
  | .androidAarch64 => "android-aarch64"
  | .androidArmv7 => "android-armv7"
  | .androidX86 => "android-x86"
  | .androidX8664 => "android-x86_64"
  | .gnuLinuxI686 => "linux-i686"
  | .gnuLinuxX8664 => "linux-x86_64"
  | .macOSAarch64 => "macos-aarch64"
  | .macOSX8664 => "macos-x86_64"
  | .windowsI686 => "windows-i686"
  | .windowsX8664 => "windows-x86_64"

/-- A filesystem path, as a list of components from the root. -/
abbrev FilePath' := List String

/-- `Downloader`: download path, target, resolved version. -/
structure Downloader where
  download_path : FilePath'
  target : Target
  version : String

/-- `Downloader::tarball_name`. -/
def tarballName (d : Downloader) : String :=
  "tor-expert-bundle-" ++ targetString d.target ++ "-" ++ d.version ++ ".tar.gz"

/-- `Downloader::download_tarball_path`. -/
def downloadTarballPath (d : Downloader) : FilePath' :=
  d.download_path ++ [tarballName d]

/-- `Downloader::download_url`: the fixed format string of the source. -/
def downloadUrl (d : Downloader) : String :=
  "https://archive.torproject.org/tor-package-archive/torbrowser/" ++ d.version ++
    "/tor-expert-bundle-" ++ targetString d.target ++ "-" ++ d.version ++ ".tar.gz"

/-! ### Filesystem model

`store_downloaded_assets` talks to the filesystem through
`Path::exists`, `std::fs::create_dir`, `std::fs::remove_file` and
`File::create_new`.  We model a filesystem as a list of directories plus an
association list of file contents, and each operation with its documented
semantics (`create_dir` is non-recursive; `create_new` fails when the path
already exists). -/

/-- Bool membership of a path in a path list. -/
def memPath : List FilePath' → FilePath' → Bool
  | [], _ => false
  | q :: rest, p => if q = p then true else memPath rest p

/-- File contents keyed by path. -/
def findValue : List (FilePath' × List Nat) → FilePath' → Option (List Nat)
  | [], _ => none
  | (q, v) :: rest, p => if q = p then some v else findValue rest p

/-- Remove every entry stored under a path. -/
def eraseFileEntries : List (FilePath' × List Nat) → FilePath' → List (FilePath' × List Nat)
  | [], _ => []
  | (q, v) :: rest, p =>
    if q = p then eraseFileEntries rest p else (q, v) :: eraseFileEntries rest p

/-- The filesystem state. -/
structure FS where
  dirs : List FilePath'
  files : List (FilePath' × List Nat)

/-- Does a directory exist at this path? -/
def dirExists (fs : FS) (p : FilePath') : Bool := memPath fs.dirs p

/-- Contents of the file at this path, if one exists. -/
def lookupFile (fs : FS) (p : FilePath') : Option (List Nat) := findValue fs.files p

/-- Does a file exist at this path? -/
def fileExists (fs : FS) (p : FilePath') : Bool := (lookupFile fs p).isSome

/-- `Path::exists`: true for files and directories alike. -/
def pathExists (fs : FS) (p : FilePath') : Bool := dirExists fs p || fileExists fs p

/-- Parent directory of a path. -/
def parentDir (p : FilePath') : FilePath' := p.dropLast

/-- Errors of the download/store pipeline (the `anyhow` contexts of
`store_downloaded_assets`, with `File::create_new`'s `AlreadyExists` kind
kept distinguishable). -/
inductive DownloadErr
  | cacheDirUnavailable
  | staleArtifactRemovalFailed
  | artifactAlreadyExists
  | createFailed
deriving DecidableEq

/-- `std::fs::create_dir`: non-recursive; fails if the path already exists
or the parent directory is missing.  In `store_downloaded_assets` its error
carries the context "Failed to create download directory." -/
def createDir (fs : FS) (p : FilePath') : Except DownloadErr FS :=
  if pathExists fs p then .error .cacheDirUnavailable
  else if dirExists fs (parentDir p) then .ok { fs with dirs := p :: fs.dirs }
  else .error .cacheDirUnavailable

/-- `std::fs::remove_file`: fails unless a file (not a directory) exists at
the path.  In `store_downloaded_assets` its error carries the context
"Failed to delete previous Tor Cached installation." -/
def removeFileStore (fs : FS) (p : FilePath') : Except DownloadErr FS :=
  if fileExists fs p then .ok { fs with files := eraseFileEntries fs.files p }
  else .error .staleArtifactRemovalFailed

/-- `File::create_new` followed by `io::copy`: exclusive creation, failing
with an `AlreadyExists` error if the path exists at the moment of creation
(and an ordinary I/O error if the parent directory is missing). -/
def createNewFile (fs : FS) (p : FilePath') (bytes : List Nat) : Except DownloadErr FS :=
  if pathExists fs p then .error .artifactAlreadyExists
  else if dirExists fs (parentDir p) then .ok { fs with files := (p, bytes) :: fs.files }
  else .error .createFailed

/-- `Downloader::store_downloaded_assets`: ensure the download directory
exists, clear a stale tarball if present, then write the fetched bytes to a
newly created tarball file. -/
def storeDownloadedAssets (d : Downloader) (fs : FS) (bytes : List Nat) :
    Except DownloadErr FS :=
  match (if !(pathExists fs d.download_path) then createDir fs d.download_path
         else .ok fs) with
  | .error e => .error e
  | .ok fs1 =>
    match (if pathExists fs1 (downloadTarballPath d) then
             removeFileStore fs1 (downloadTarballPath d)
           else .ok fs1) with
    | .error e => .error e
    | .ok fs2 => createNewFile fs2 (downloadTarballPath d) bytes

theorem findValue_erase_self :
    ∀ (l : List (FilePath' × List Nat)) (p : FilePath'),
      findValue (eraseFileEntries l p) p = none
  | [], _ => rfl
  | (q, v) :: rest, p => by
    by_cases h : q = p
    · simp only [eraseFileEntries, if_pos h]
      exact findValue_erase_self rest p
    · simp only [eraseFileEntries, if_neg h, findValue, if_neg h]
      exact findValue_erase_self rest p

theorem findValue_erase_ne :
    ∀ (l : List (FilePath' × List Nat)) (p q : FilePath'), q ≠ p →
      findValue (eraseFileEntries l p) q = findValue l q
  | [], _, _, _ => rfl
  | (r, v) :: rest, p, q, hqp => by
    by_cases h : r = p
    · have hrq : r ≠ q := fun hc => hqp (hc ▸ h)
      simp only [eraseFileEntries, if_pos h, findValue]
      rw [if_neg hrq]
      exact findValue_erase_ne rest p q hqp
    · simp only [eraseFileEntries, if_neg h, findValue]
      by_cases hrq : r = q
      · rw [if_pos hrq, if_pos hrq]
      · rw [if_neg hrq, if_neg hrq]
        exact findValue_erase_ne rest p q hqp

/-! ## The Tor process supervisor (`tor.rs`)

`run` spawns the binary with piped stdout and scans the lines for the
bootstrap marker; `kill` sends SIGKILL on unix and is a no-op on windows;
`Drop` performs a best-effort `kill`, discarding its result.

Spawning and the OS process table are external: a spawn outcome is either a
failure, or an optional process id together with the stdout line stream
(each line either read successfully or an I/O error, the list ending where
the stream ends because the process exited).  The process table is a list
of live pids; SIGKILL delivery fails with ESRCH when the pid is not live. -/

/-- `TOR_BOOTSTRAPED_LOG` from `tor.rs`. -/
def TOR_BOOTSTRAPED_LOG : String := "Bootstrapped 100% (done): Done"

/-- The `Tor` struct: optional recorded pid, download path, version. -/
structure TorSt where
  pid : Option Nat
  path : FilePath'
  version : String
deriving DecidableEq

/-- `Tor::setup_with_version` after a successful download: no pid recorded,
path and version taken from the downloader. -/
def setupTor (d : Downloader) : TorSt :=
  { pid := none, path := d.download_path, version := d.version }

/-- The `run` read loop: `while let Some(line) = reader.next_line().await?`.
A read error propagates; a line containing the marker breaks the loop; the
end of the stream simply ends the loop. -/
def waitForBootstrap : List (Except String String) → Except String Unit
  | [] => .ok ()
  | .error e :: _ => .error e
  | .ok line :: rest =>
    if containsSub line TOR_BOOTSTRAPED_LOG then .ok () else waitForBootstrap rest

/-- A spawn outcome: spawn failure, or an optional pid plus the stdout
stream. -/
abbrev SpawnOutcome := Except String (Option Nat × List (Except String String))

/-- `Tor::run`: spawn, record the pid, scan stdout for the marker, and
return the pid.  Returns the result together with the updated struct (the
pid is recorded as soon as the spawn succeeds, before the scan). -/
def runTor (t : TorSt) (spawn : SpawnOutcome) : Except String Nat × TorSt :=
  match spawn with
  | .error _ => (.error "Failed to spawn Tor Process", t)
  | .ok (none, _) => (.error "No Process ID for Tor", t)
  | .ok (some pid, lines) =>
    let t' := { t with pid := some pid }
    match waitForBootstrap lines with
    | .error e => (.error e, t')
    | .ok () => (.ok pid, t')

/-- Bool membership in the live-pid table. -/
def pidLive : List Nat → Nat → Bool
  | [], _ => false
  | q :: rest, p => if q = p then true else pidLive rest p

/-- Remove a pid from the live-pid table. -/
def pidErase : List Nat → Nat → List Nat
  | [], _ => []
  | q :: rest, p => if q = p then rest else q :: pidErase rest p

/-- `nix::sys::signal::kill(pid, SIGKILL)`: delivering SIGKILL terminates a
live process; signaling a dead pid fails with ESRCH. -/
def sigKill (w : List Nat) (pid : Nat) : Except String Unit × List Nat :=
  if pidLive w pid then (.ok (), pidErase w pid) else (.error "ESRCH", w)

/-- `Tor::kill` on linux/macos: signal the recorded pid, or fail when none
is recorded. -/
def killTorUnix (t : TorSt) (w : List Nat) : Except String Unit × List Nat :=
  match t.pid with
  | some pid => sigKill w pid
  | none => (.error "No process for Tor avaialable.", w)

/-- `Tor::kill` on windows: prints "Not implemented!" and returns `Ok(())`
without touching any process. -/
def killTorWindows (_t : TorSt) : Except String Unit := .ok ()

/-- `impl Drop for Tor`: `let _ = self.kill();` — the kill is attempted and
its result discarded; drop itself cannot fail. -/
def dropTor (t : TorSt) (w : List Nat) : List Nat :=
  (killTorUnix t w).2

/-- The end of the owning scope: the outcome of the operation that
triggered teardown passes through unchanged while `Drop` runs the
best-effort kill. -/
def scopeEnd (outcome : Except String α) (t : TorSt) (w : List Nat) :
    Except String α × List Nat :=
  (outcome, dropTor t w)

/-! ## Claims -/

/-- C2: resolving the pinned selection `Version(v)` returns exactly `v`,
independently of the index fetch outcome (no network access) and without
any error path. -/
theorem resolve_pinned_identity (v : String) (fetched : Except String (List String)) :
    resolveVersion (.version v) fetched = .ok v := rfl

/-- C5: the download URL is exactly the fixed template with the rendered
target and the version substituted, and for target `macos-x86_64` and
version `14.0.4` it is byte-for-byte the expected archive URL. -/
theorem download_url_template :
    (∀ (p : FilePath') (t : Target) (v : String),
      downloadUrl ⟨p, t, v⟩ =
        "https://archive.torproject.org/tor-package-archive/torbrowser/" ++ v ++
          "/tor-expert-bundle-" ++ targetString t ++ "-" ++ v ++ ".tar.gz")
  ∧ downloadUrl ⟨[], .macOSX8664, "14.0.4"⟩ =
      "https://archive.torproject.org/tor-package-archive/torbrowser/14.0.4/tor-expert-bundle-macos-x86_64-14.0.4.tar.gz" :=
  ⟨fun _ _ _ => rfl, rfl⟩

/-- C3: from the fixed index response `["14.0.1/", "14.0.4/",
"14.5.0-alpha/", "../"]` the candidate list drops the parent marker and
trims trailing slashes; `Stable` resolves to `14.0.4` and `Latest` to
`14.5.0-alpha`. -/
theorem resolve_fixed_index_example :
    extractVersions ["14.0.1/", "14.0.4/", "14.5.0-alpha/", "../"] =
      ["14.0.1", "14.0.4", "14.5.0-alpha"]
  ∧ resolveVersion .stable
      (.ok (extractVersions ["14.0.1/", "14.0.4/", "14.5.0-alpha/", "../"])) =
      .ok "14.0.4"
  ∧ resolveVersion .latest
      (.ok (extractVersions ["14.0.1/", "14.0.4/", "14.5.0-alpha/", "../"])) =
      .ok "14.5.0-alpha" :=
  ⟨rfl, rfl, rfl⟩

/-- C1: when the stdout stream ends without any line containing the
bootstrap marker, `run` returns `Ok(pid)` — success, not a distinguishable
"process exited early" error.  This exhibits the divergence between the
code and the specified `ProcessExitedEarly` failure. -/
theorem run_exited_early_returns_ok :
    runTor (setupTor ⟨["cache"], .gnuLinuxX8664, "14.0.4"⟩)
        (.ok (some 42, [.ok "[notice] Tor 0.4.8.9 opening log file.",
                        .ok "[notice] Catching signal TERM, exiting cleanly."])) =
      (.ok 42, ⟨some 42, ["cache"], "14.0.4"⟩)
  ∧ containsSub "[notice] Tor 0.4.8.9 opening log file." TOR_BOOTSTRAPED_LOG = false
  ∧ containsSub "[notice] Catching signal TERM, exiting cleanly." TOR_BOOTSTRAPED_LOG = false :=
  ⟨rfl, rfl, rfl⟩

/-- C7: `kill` with no recorded pid fails with the "no process" error on
unix (linux/macos), while the windows `kill` is a no-op that reports
success for every supervisor state. -/
theorem kill_no_active_process :
    (∀ (t : TorSt) (w : List Nat), t.pid = none →
      killTorUnix t w = (.error "No process for Tor avaialable.", w))
  ∧ (∀ t : TorSt, killTorWindows t = .ok ()) := by
  constructor
  · intro t w h
    unfold killTorUnix
    rw [h]
  · intro t
    rfl

/-- Witness for C7 at a freshly set-up supervisor. -/
theorem kill_no_active_process_witness :
    (setupTor ⟨["cache"], .gnuLinuxX8664, "14.0.4"⟩).pid = none
  ∧ killTorUnix (setupTor ⟨["cache"], .gnuLinuxX8664, "14.0.4"⟩) [7] =
      (.error "No process for Tor avaialable.", [7])
  ∧ killTorWindows (setupTor ⟨["cache"], .gnuLinuxX8664, "14.0.4"⟩) = .ok () :=
  ⟨rfl, kill_no_active_process.1 _ [7] rfl, kill_no_active_process.2 _⟩

/-- C8: teardown at scope end runs exactly the best-effort kill, passes the
triggering operation's outcome through unchanged, swallows the kill error
when no pid is recorded, and actually terminates a recorded live pid. -/
theorem drop_best_effort_kill :
    (∀ (α : Type) (outcome : Except String α) (t : TorSt) (w : List Nat),
      scopeEnd outcome t w = (outcome, (killTorUnix t w).2))
  ∧ (∀ (t : TorSt) (w : List Nat), t.pid = none →
      (killTorUnix t w).1 = .error "No process for Tor avaialable." ∧ dropTor t w = w)
  ∧ (∀ (t : TorSt) (w : List Nat) (p : Nat), t.pid = some p → pidLive w p = true →
      dropTor t w = pidErase w p) := by
  refine ⟨fun α outcome t w => rfl, ?_, ?_⟩
  · intro t w h
    constructor
    · unfold killTorUnix
      rw [h]
    · unfold dropTor killTorUnix
      rw [h]
  · intro t w p hp hl
    simp [dropTor, killTorUnix, hp, sigKill, hl]

/-- Witness for C8: a failing kill (no pid) is swallowed, a live pid is
killed, and a concrete outcome passes through. -/
theorem drop_best_effort_kill_witness :
    scopeEnd (.ok 5 : Except String Nat) ⟨some 7, ["cache"], "14.0.4"⟩ [7] = (.ok 5, [])
  ∧ ((killTorUnix ⟨none, ["cache"], "14.0.4"⟩ []).1 =
        .error "No process for Tor avaialable."
      ∧ dropTor ⟨none, ["cache"], "14.0.4"⟩ [] = [])
  ∧ dropTor ⟨some 7, ["cache"], "14.0.4"⟩ [7] = pidErase [7] 7 :=
  ⟨(drop_best_effort_kill.1 Nat (.ok 5) ⟨some 7, ["cache"], "14.0.4"⟩ [7]).trans rfl,
   drop_best_effort_kill.2.1 ⟨none, ["cache"], "14.0.4"⟩ [] rfl,
   drop_best_effort_kill.2.2 ⟨some 7, ["cache"], "14.0.4"⟩ [7] 7 rfl rfl⟩

/-- C4 counterexample: with candidates `["1.2.3.4", "abc"]` (both fail to
parse as semantic versions) `Latest` resolves to `"abc"` — an unparsable
entry is chosen although it is not the only remaining entry, refuting the
"never chosen unless it is the only remaining entry" reading. -/
theorem resolve_unparsable_chosen_counterexample :
    resolveVersion .latest (.ok ["1.2.3.4", "abc"]) = .ok "abc"
  ∧ semverParse "abc" = none
  ∧ (["1.2.3.4", "abc"] : List String).filter (selFilter .latest) =
      ["1.2.3.4", "abc"] :=
  ⟨rfl, rfl, rfl⟩

/-- C4 (amended): resolving `Latest`/`Stable` fails with "No valid versions
found" exactly when the filtered candidate list is empty; otherwise it
returns a member of the filtered list that is maximal under the
semver-or-0.0.0 ordering (so parse failures never abort resolution, and an
unparsable entry can only be chosen when no remaining entry exceeds
version 0.0.0). -/
theorem resolve_max_semantics (sel : VersionSelection)
    (hsel : sel = .latest ∨ sel = .stable) (versions : List String) :
    (resolveVersion sel (.ok versions) = .error "No valid versions found" ↔
      versions.filter (selFilter sel) = [])
  ∧ (versions.filter (selFilter sel) ≠ [] →
      ∃ r, resolveVersion sel (.ok versions) = .ok r)
  ∧ (∀ r, resolveVersion sel (.ok versions) = .ok r →
      r ∈ versions.filter (selFilter sel)
      ∧ (∀ v ∈ versions.filter (selFilter sel), cmpVer v r ≠ .gt)
      ∧ (semverParse r = none →
          ∀ v ∈ versions.filter (selFilter sel),
            cmpKey (verKey v) ⟨0, 0, 0, none⟩ ≠ .gt)) := by
  have hres := resolveVersion_eq_maxBy sel hsel versions
  cases hfl : versions.filter (selFilter sel) with
  | nil =>
    rw [hfl] at hres
    simp only [maxByCmp] at hres
    refine ⟨?_, ?_, ?_⟩
    · rw [hres]
      simp
    · intro h
      exact absurd rfl h
    · intro r hr
      rw [hres] at hr
      exact absurd hr (by simp)
  | cons a as =>
    rw [hfl] at hres
    simp only [maxByCmp] at hres
    refine ⟨?_, ?_, ?_⟩
    · rw [hres]
      simp
    · intro _
      exact ⟨as.foldl (pickMax cmpVer) a, hres⟩
    · intro r hr
      rw [hres] at hr
      have hfold : as.foldl (pickMax cmpVer) a = r := by
        simpa using hr
      subst hfold
      refine ⟨foldl_pickMax_mem cmpVer as a, ?_, ?_⟩
      · intro v hv
        exact foldl_pickMax_ub cmpVer as a v hv
      · intro hnp v hv
        have hkey : verKey (as.foldl (pickMax cmpVer) a) = ⟨0, 0, 0, none⟩ := by
          unfold verKey
          rw [hnp]
          rfl
        have hub : cmpVer v (as.foldl (pickMax cmpVer) a) ≠ .gt :=
          foldl_pickMax_ub cmpVer as a v hv
        show cmpKey (verKey v) ⟨0, 0, 0, none⟩ ≠ .gt
        rw [← hkey]
        exact hub

/-- Witness for C4 at `Latest` over the concrete candidate list
`["14.0.1", "14.0.4"]`. -/
theorem resolve_max_semantics_witness :
    (VersionSelection.latest = VersionSelection.latest ∨
      VersionSelection.latest = VersionSelection.stable)
  ∧ ((resolveVersion .latest (.ok ["14.0.1", "14.0.4"]) =
        .error "No valid versions found" ↔
        (["14.0.1", "14.0.4"] : List String).filter (selFilter .latest) = [])
    ∧ ((["14.0.1", "14.0.4"] : List String).filter (selFilter .latest) ≠ [] →
        ∃ r, resolveVersion .latest (.ok ["14.0.1", "14.0.4"]) = .ok r)
    ∧ (∀ r, resolveVersion .latest (.ok ["14.0.1", "14.0.4"]) = .ok r →
        r ∈ (["14.0.1", "14.0.4"] : List String).filter (selFilter .latest)
        ∧ (∀ v ∈ (["14.0.1", "14.0.4"] : List String).filter (selFilter .latest),
            cmpVer v r ≠ .gt)
        ∧ (semverParse r = none →
            ∀ v ∈ (["14.0.1", "14.0.4"] : List String).filter (selFilter .latest),
              cmpKey (verKey v) ⟨0, 0, 0, none⟩ ≠ .gt))) :=
  ⟨Or.inl rfl, resolve_max_semantics .latest (Or.inl rfl) ["14.0.1", "14.0.4"]⟩

/-- C9 counterexample: after a successful `run` (marker emitted, pid 7
recorded) and a successful `kill`, the recorded identifier is still
`some 7` — termination does not clear or invalidate it. -/
theorem tor_pid_not_cleared_counterexample :
    (runTor (setupTor ⟨["cache"], .gnuLinuxX8664, "14.0.4"⟩)
        (.ok (some 7, [.ok "May 01 [notice] Bootstrapped 100% (done): Done"]))).1 =
      .ok 7
  ∧ (runTor (setupTor ⟨["cache"], .gnuLinuxX8664, "14.0.4"⟩)
        (.ok (some 7, [.ok "May 01 [notice] Bootstrapped 100% (done): Done"]))).2.pid =
      some 7
  ∧ killTorUnix
      (runTor (setupTor ⟨["cache"], .gnuLinuxX8664, "14.0.4"⟩)
        (.ok (some 7, [.ok "May 01 [notice] Bootstrapped 100% (done): Done"]))).2
      [7] = (.ok (), [])
  ∧ (runTor (setupTor ⟨["cache"], .gnuLinuxX8664, "14.0.4"⟩)
        (.ok (some 7, [.ok "May 01 [notice] Bootstrapped 100% (done): Done"]))).2.pid ≠
      none := by
  refine ⟨rfl, rfl, rfl, ?_⟩
  intro hc
  exact Option.noConfusion hc

/-- C9 (amended): the pid is absent after setup; a successful `run` records
the pid it returns; `kill` signals exactly the recorded pid and leaves it
recorded, so a repeated kill after termination attempts the signal again
and fails with ESRCH (not with "no active process"). -/
theorem tor_pid_lifecycle :
    (∀ d : Downloader, (setupTor d).pid = none)
  ∧ (∀ (t : TorSt) (spawn : SpawnOutcome) (p : Nat),
      (runTor t spawn).1 = .ok p → (runTor t spawn).2.pid = some p)
  ∧ (∀ (t : TorSt) (w : List Nat) (p : Nat), t.pid = some p →
      killTorUnix t w = sigKill w p)
  ∧ (∀ (t : TorSt) (w : List Nat) (p : Nat), t.pid = some p → pidLive w p = false →
      (killTorUnix t w).1 = .error "ESRCH") := by
  refine ⟨fun d => rfl, ?_, ?_, ?_⟩
  · intro t spawn p h
    match spawn with
    | .error e =>
      exact absurd h (by simp [runTor])
    | .ok (none, lines) =>
      exact absurd h (by simp [runTor])
    | .ok (some pid, lines) =>
      simp only [runTor] at h ⊢
      cases hw : waitForBootstrap lines with
      | error e =>
        rw [hw] at h
        exact Except.noConfusion h
      | ok u =>
        cases u
        rw [hw] at h
        exact congrArg some (Except.ok.inj h)
  · intro t w p hp
    unfold killTorUnix
    rw [hp]
  · intro t w p hp hl
    simp [killTorUnix, hp, sigKill, hl]

/-- Witness for C9 at concrete supervisor states. -/
theorem tor_pid_lifecycle_witness :
    (setupTor ⟨["cache"], .gnuLinuxX8664, "14.0.4"⟩).pid = none
  ∧ (runTor ⟨none, ["cache"], "14.0.4"⟩ (.ok (some 3, []))).2.pid = some 3
  ∧ killTorUnix ⟨some 3, ["cache"], "14.0.4"⟩ [] = sigKill [] 3
  ∧ (killTorUnix ⟨some 3, ["cache"], "14.0.4"⟩ []).1 = .error "ESRCH" :=
  ⟨tor_pid_lifecycle.1 ⟨["cache"], .gnuLinuxX8664, "14.0.4"⟩,
   tor_pid_lifecycle.2.1 ⟨none, ["cache"], "14.0.4"⟩ (.ok (some 3, [])) 3 rfl,
   tor_pid_lifecycle.2.2.1 ⟨some 3, ["cache"], "14.0.4"⟩ [] 3 rfl,
   tor_pid_lifecycle.2.2.2 ⟨some 3, ["cache"], "14.0.4"⟩ [] 3 rfl rfl⟩

/-- C6: with the download directory present, the store step deletes a stale
file at the archive path before writing (so on success the archive holds
exactly the new bytes and no other file changes), fails with the
stale-artifact-removal error when the deletion fails (the path exists but
is not a file), and the write itself has exclusive-creation semantics:
creating at an existing path fails with the already-exists error. -/
theorem store_downloaded_assets_overwrite (d : Downloader) (fs : FS) (bytes : List Nat)
    (hdir : dirExists fs d.download_path = true) :
    (dirExists fs (downloadTarballPath d) = false →
      ∃ fs', storeDownloadedAssets d fs bytes = .ok fs'
        ∧ lookupFile fs' (downloadTarballPath d) = some bytes
        ∧ (∀ q, q ≠ downloadTarballPath d → lookupFile fs' q = lookupFile fs q)
        ∧ fs'.dirs = fs.dirs)
  ∧ (dirExists fs (downloadTarballPath d) = true →
      fileExists fs (downloadTarballPath d) = false →
      storeDownloadedAssets d fs bytes = .error .staleArtifactRemovalFailed)
  ∧ (∀ (g : FS) (p : FilePath') (b : List Nat), pathExists g p = true →
      createNewFile g p b = .error .artifactAlreadyExists) := by
  have hpe : pathExists fs d.download_path = true := by
    simp [pathExists, hdir]
  have hpar : parentDir (downloadTarballPath d) = d.download_path := by
    simp [parentDir, downloadTarballPath]
  refine ⟨?_, ?_, ?_⟩
  · intro hd
    by_cases hf : fileExists fs (downloadTarballPath d) = true
    · have hpt : pathExists fs (downloadTarballPath d) = true := by
        simp [pathExists, hf]
      have hpe2 : pathExists ⟨fs.dirs, eraseFileEntries fs.files (downloadTarballPath d)⟩
          (downloadTarballPath d) = false := by
        simp only [pathExists, dirExists, fileExists, lookupFile, Bool.or_eq_false_iff]
        exact ⟨hd, by rw [findValue_erase_self]; rfl⟩
      have hpd2 : dirExists ⟨fs.dirs, eraseFileEntries fs.files (downloadTarballPath d)⟩
          (parentDir (downloadTarballPath d)) = true := by
        rw [hpar]
        exact hdir
      refine ⟨⟨fs.dirs, (downloadTarballPath d, bytes) ::
        eraseFileEntries fs.files (downloadTarballPath d)⟩, ?_, ?_, ?_, rfl⟩
      · simp [storeDownloadedAssets, hpe, hpt, removeFileStore, hf, createNewFile,
          hpe2, hpd2]
      · simp [lookupFile, findValue]
      · intro q hq
        show lookupFile ⟨fs.dirs, (downloadTarballPath d, bytes) ::
          eraseFileEntries fs.files (downloadTarballPath d)⟩ q = lookupFile fs q
        simp only [lookupFile, findValue]
        rw [if_neg (Ne.symm hq)]
        exact findValue_erase_ne fs.files (downloadTarballPath d) q hq
    · have hf0 : fileExists fs (downloadTarballPath d) = false := by
        simpa using hf
      have hp0 : pathExists fs (downloadTarballPath d) = false := by
        simp [pathExists, hd, hf0]
      have hpd2 : dirExists fs (parentDir (downloadTarballPath d)) = true := by
        rw [hpar]
        exact hdir
      refine ⟨⟨fs.dirs, (downloadTarballPath d, bytes) :: fs.files⟩, ?_, ?_, ?_, rfl⟩
      · simp [storeDownloadedAssets, hpe, hp0, createNewFile, hpd2]
      · simp [lookupFile, findValue]
      · intro q hq
        show lookupFile ⟨fs.dirs, (downloadTarballPath d, bytes) :: fs.files⟩ q =
          lookupFile fs q
        simp only [lookupFile, findValue]
        rw [if_neg (Ne.symm hq)]
  · intro hd hf
    have hpt : pathExists fs (downloadTarballPath d) = true := by
      simp [pathExists, hd]
    simp [storeDownloadedAssets, hpe, hpt, removeFileStore, hf]
  · intro g p b hp
    simp [createNewFile, hp]

/-- Witness for C6 at a one-directory filesystem holding a stale archive. -/
theorem store_downloaded_assets_overwrite_witness :
    dirExists ⟨[["cache"]], [(["cache", "tor-expert-bundle-macos-x86_64-14.0.4.tar.gz"], [9])]⟩
      (Downloader.mk ["cache"] Target.macOSX8664 "14.0.4").download_path = true
  ∧ ((dirExists ⟨[["cache"]], [(["cache", "tor-expert-bundle-macos-x86_64-14.0.4.tar.gz"], [9])]⟩
        (downloadTarballPath (Downloader.mk ["cache"] Target.macOSX8664 "14.0.4")) = false →
      ∃ fs', storeDownloadedAssets (Downloader.mk ["cache"] Target.macOSX8664 "14.0.4")
          ⟨[["cache"]], [(["cache", "tor-expert-bundle-macos-x86_64-14.0.4.tar.gz"], [9])]⟩
          [1, 2, 3] = .ok fs'
        ∧ lookupFile fs'
            (downloadTarballPath (Downloader.mk ["cache"] Target.macOSX8664 "14.0.4")) =
            some [1, 2, 3]
        ∧ (∀ q, q ≠ downloadTarballPath (Downloader.mk ["cache"] Target.macOSX8664 "14.0.4") →
            lookupFile fs' q = lookupFile
              ⟨[["cache"]], [(["cache", "tor-expert-bundle-macos-x86_64-14.0.4.tar.gz"], [9])]⟩ q)
        ∧ fs'.dirs = [["cache"]])
    ∧ (dirExists ⟨[["cache"]], [(["cache", "tor-expert-bundle-macos-x86_64-14.0.4.tar.gz"], [9])]⟩
        (downloadTarballPath (Downloader.mk ["cache"] Target.macOSX8664 "14.0.4")) = true →
       fileExists ⟨[["cache"]], [(["cache", "tor-expert-bundle-macos-x86_64-14.0.4.tar.gz"], [9])]⟩
        (downloadTarballPath (Downloader.mk ["cache"] Target.macOSX8664 "14.0.4")) = false →
       storeDownloadedAssets (Downloader.mk ["cache"] Target.macOSX8664 "14.0.4")
         ⟨[["cache"]], [(["cache", "tor-expert-bundle-macos-x86_64-14.0.4.tar.gz"], [9])]⟩
         [1, 2, 3] = .error .staleArtifactRemovalFailed)
    ∧ (∀ (g : FS) (p : FilePath') (b : List Nat), pathExists g p = true →
        createNewFile g p b = .error .artifactAlreadyExists)) :=
  ⟨rfl, store_downloaded_assets_overwrite (Downloader.mk ["cache"] Target.macOSX8664 "14.0.4")
    ⟨[["cache"]], [(["cache", "tor-expert-bundle-macos-x86_64-14.0.4.tar.gz"], [9])]⟩
    [1, 2, 3] rfl⟩

/-- C10: when the download directory and its parent are both absent, the
store step fails with the cache-directory error instead of creating the
missing ancestors — `create_dir` is non-recursive and only ever creates
the final path component. -/
theorem store_create_dir_nonrecursive (d : Downloader) (fs : FS) (bytes : List Nat)
    (habs : pathExists fs d.download_path = false)
    (hpar : dirExists fs (parentDir d.download_path) = false) :
    storeDownloadedAssets d fs bytes = .error .cacheDirUnavailable
  ∧ (∀ (g : FS) (p : FilePath') (g' : FS), createDir g p = .ok g' →
      g'.dirs = p :: g.dirs) := by
  constructor
  · simp [storeDownloadedAssets, habs, createDir, hpar]
  · intro g p g' h
    unfold createDir at h
    split at h
    · exact absurd h (by simp)
    · split at h
      · cases h
        rfl
      · exact absurd h (by simp)

/-- Witness for C10 on an empty filesystem rooted at `[]`. -/
theorem store_create_dir_nonrecursive_witness :
    pathExists ⟨[[]], []⟩ (Downloader.mk ["a", "b"] Target.gnuLinuxX8664 "14.0.4").download_path = false
  ∧ dirExists ⟨[[]], []⟩
      (parentDir (Downloader.mk ["a", "b"] Target.gnuLinuxX8664 "14.0.4").download_path) = false
  ∧ (storeDownloadedAssets (Downloader.mk ["a", "b"] Target.gnuLinuxX8664 "14.0.4")
        ⟨[[]], []⟩ [1] = .error .cacheDirUnavailable
     ∧ (∀ (g : FS) (p : FilePath') (g' : FS), createDir g p = .ok g' →
         g'.dirs = p :: g.dirs)) :=
  ⟨rfl, rfl,
   store_create_dir_nonrecursive (Downloader.mk ["a", "b"] Target.gnuLinuxX8664 "14.0.4")
     ⟨[[]], []⟩ [1] rfl rfl⟩
